import Mathlib

/-!
Verification of the Grafana Alertmanager configuration reconciliation and
provisioning layer: a shallow embedding of the `notifier` package
(MultiOrgAlertmanager config lifecycle) and the `provisioning` package
(NotificationPolicyService), with theorems settling the spec's claims.

External collaborators (configuration store, provenance store, crypto,
permission adapter, the live per-org Alertmanager instance, and the random
UID generator) are modelled as explicit oracle values supplied to each
operation, so that the control flow of the embedded functions mirrors the
source line by line while the collaborators' outcomes stay quantifiable.
-/

namespace Grafana

/-- Decidable equality of `Except` results, used to evaluate the embedded
operations at concrete inputs. -/
instance {ε α : Type} [DecidableEq ε] [DecidableEq α] : DecidableEq (Except ε α) := fun a b =>
  match a, b with
  | .error e1, .error e2 =>
      match decEq e1 e2 with
      | isTrue h => isTrue (by rw [h])
      | isFalse h => isFalse (by intro hc; injection hc; contradiction)
  | .ok a1, .ok a2 =>
      match decEq a1 a2 with
      | isTrue h => isTrue (by rw [h])
      | isFalse h => isFalse (by intro hc; injection hc; contradiction)
  | .error _, .ok _ => isFalse (by intro hc; injection hc)
  | .ok _, .error _ => isFalse (by intro hc; injection hc)

/-- A JSON document AST. Raw Alertmanager configuration documents are
modelled as already-parsed JSON values; numbers are irrelevant to every
claim and carry an `Int` payload. -/
inductive Json where
  | null : Json
  | bool : Bool → Json
  | num : Int → Json
  | str : String → Json
  | arr : List Json → Json
  | obj : List (String × Json) → Json

/-- ASCII case folding of a key, modelling the case-insensitive field-name
matching performed by Go's `encoding/json` decoder (`strings.EqualFold`;
the documents relevant to this development use ASCII keys). -/
def asciiFold (s : String) : String :=
  { data := s.data.map Char.toLower }

/-- The slim receiver record of `extractReceiverNames`'s local
`receiverUserConfig` type: only the receiver name is decoded. -/
structure SlimReceiver where
  name : String
deriving DecidableEq

/-- Generic member-wise decode of a JSON object into a target value,
following `encoding/json` semantics: members are processed in order, every
member whose key case-insensitively matches `key` is decoded into the
current value by `step`, and all other members are ignored. -/
def foldKeyed (key : String) (step : α → Json → Except String α) (cur : α) :
    List (String × Json) → Except String α
  | [] => .ok cur
  | (k, v) :: rest =>
      if asciiFold k = key then
        match step cur v with
        | .error e => .error e
        | .ok cur1 => foldKeyed key step cur1 rest
      else foldKeyed key step cur rest

/-- Decoding of a value sitting under a `name` key of a receiver element:
a string replaces the name, a JSON `null` is a no-op, anything else is a
type error. -/
def stepName (cur : SlimReceiver) : Json → Except String SlimReceiver
  | Json.null => .ok cur
  | Json.str s => .ok { name := s }
  | _ => .error "json: cannot unmarshal value into field name of type string"

/-- Decoding of the members of one receiver object into a `SlimReceiver`:
only `name` members are decoded. -/
def fieldsIntoReceiver (cur : SlimReceiver) (fields : List (String × Json)) :
    Except String SlimReceiver :=
  foldKeyed "name" stepName cur fields

/-- Decoding of one receivers-array element: `null` leaves the current
element untouched, an object decodes member-wise, anything else is a type
error. -/
def decodeReceiverInto (cur : SlimReceiver) : Json → Except String SlimReceiver
  | Json.null => .ok cur
  | Json.obj fields => fieldsIntoReceiver cur fields
  | _ => .error "json: cannot unmarshal value into receiver element"

/-- Decoding of a receivers array: element `i` decodes into the existing
element `i` when one is present (in-place slice reuse of `encoding/json`)
and into a fresh zero value otherwise; the result has the array's length. -/
def decodeReceiverElems : List SlimReceiver → List Json → Except String (List SlimReceiver)
  | _, [] => .ok []
  | cur, x :: xs =>
      match decodeReceiverInto (cur.headD { name := "" }) x with
      | .error e => .error e
      | .ok r =>
          match decodeReceiverElems cur.tail xs with
          | .error e => .error e
          | .ok rs => .ok (r :: rs)

/-- Decoding of a value sitting under a `receivers` key: `null` sets the
slice to nil, an array decodes element-wise, anything else is a type
error. -/
def decodeReceiversValue (cur : List SlimReceiver) : Json → Except String (List SlimReceiver)
  | Json.null => .ok []
  | Json.arr xs => decodeReceiverElems cur xs
  | _ => .error "json: cannot unmarshal value into field receivers of type slice"

/-- Decoding of the members of the `alertmanager_config` object: only keys
matching `receivers` are decoded, in order; everything else is ignored. -/
def fieldsIntoAMConfig (cur : List SlimReceiver) (fields : List (String × Json)) :
    Except String (List SlimReceiver) :=
  foldKeyed "receivers" decodeReceiversValue cur fields

/-- Decoding of a value sitting under an `alertmanager_config` key:
`null` is a no-op for a struct target, an object decodes member-wise,
anything else is a type error. -/
def decodeAMConfigValue (cur : List SlimReceiver) : Json → Except String (List SlimReceiver)
  | Json.null => .ok cur
  | Json.obj fields => fieldsIntoAMConfig cur fields
  | _ => .error "json: cannot unmarshal value into field alertmanager_config"

/-- Decoding of the top-level members of the raw configuration document:
only keys matching `alertmanager_config` are decoded, in order; all other
sections of the document are ignored entirely. -/
def fieldsIntoTop (cur : List SlimReceiver) (fields : List (String × Json)) :
    Except String (List SlimReceiver) :=
  foldKeyed "alertmanager_config" decodeAMConfigValue cur fields

/-- `extractReceiverNames` of the notifier package: a deliberately minimal,
schema-tolerant decode of `alertmanager_config.receivers[].name` from the
raw configuration, building the set of receiver names. The Go set
(`sets.Set[string]`) is embedded as its insertion-order enumeration — a
deduplicated list — so that the set stays executable. -/
def extractReceiverNameList (rawConfig : Json) : Except String (List String) :=
  match rawConfig with
  | Json.null => .ok []
  | Json.obj fields =>
      match fieldsIntoTop [] fields with
      | .error e => .error ("unable to parse Alertmanager configuration: " ++ e)
      | .ok rs => .ok (rs.map SlimReceiver.name).dedup
  | _ => .error "unable to parse Alertmanager configuration: json: cannot unmarshal value into receiverUserConfig"

/-- The set of receiver names extracted by `extractReceiverNames`, viewed
as a finite set. -/
def extractReceiverNames (rawConfig : Json) : Except String (Finset String) :=
  match extractReceiverNameList rawConfig with
  | .error e => .error e
  | .ok l => .ok l.toFinset

/-- Number of members of an object whose key case-folds to `key`. -/
def countKey (key : String) (fields : List (String × Json)) : Nat :=
  (fields.filter (fun kv => asciiFold kv.1 = key)).length

/-- First member of an object whose key case-folds to `key`. -/
def findKey (key : String) (fields : List (String × Json)) : Option Json :=
  (fields.find? (fun kv => asciiFold kv.1 = key)).map (fun kv => kv.2)

/-- Well-formedness of one receivers-array element in the spec's sense:
at most one `name` member, holding a string (or null, or absent); the
remaining members of the element are unconstrained. -/
def elemNameWellFormed : Json → Bool
  | Json.null => true
  | Json.obj fields =>
      decide (countKey "name" fields ≤ 1) &&
      (match findKey "name" fields with
       | none => true
       | some Json.null => true
       | some (Json.str _) => true
       | some _ => false)
  | _ => false

/-- The receiver name a well-formed element carries (empty when absent). -/
def elemNameOf : Json → String
  | Json.obj fields =>
      match findKey "name" fields with
      | some (Json.str s) => s
      | _ => ""
  | _ => ""

/-- Well-formedness of exactly the `alertmanager_config.receivers[].name`
path of a document, in the spec's words: the path itself is shaped as the
slim schema expects, while every section of the document unrelated to
receiver names is left completely unconstrained. -/
def receiversWellFormed : Json → Bool
  | Json.null => true
  | Json.obj fields =>
      decide (countKey "alertmanager_config" fields ≤ 1) &&
      (match findKey "alertmanager_config" fields with
       | none => true
       | some Json.null => true
       | some (Json.obj acFields) =>
           decide (countKey "receivers" acFields ≤ 1) &&
           (match findKey "receivers" acFields with
            | none => true
            | some Json.null => true
            | some (Json.arr xs) => xs.all elemNameWellFormed
            | some _ => false)
       | some _ => false)
  | _ => false

/-- The receiver names present at the
`alertmanager_config.receivers[].name` path of a document, in document
order. -/
def receiverNameListOf : Json → List String
  | Json.obj fields =>
      match findKey "alertmanager_config" fields with
      | some (Json.obj acFields) =>
          match findKey "receivers" acFields with
          | some (Json.arr xs) => xs.map elemNameOf
          | _ => []
      | _ => []
  | _ => []

/-- The set of receiver names present at the
`alertmanager_config.receivers[].name` path of a document. -/
def receiverNamesOf (j : Json) : Finset String :=
  (receiverNameListOf j).toFinset

/-- A concrete raw configuration whose unrelated sections are structurally
invalid (a numeric `template_files`, a string `route`, a boolean
`mute_time_intervals`, a numeric `settings`) while every receiver name is
well-formed. -/
def c3Doc : Json :=
  Json.obj
    [("template_files", Json.num 5),
     ("alertmanager_config", Json.obj
        [("route", Json.str "garbage"),
         ("receivers", Json.arr
            [Json.obj [("name", Json.str "email"), ("settings", Json.num 3)],
             Json.obj [("name", Json.str "slack")]]),
         ("mute_time_intervals", Json.bool false)])]

/-- Modelled from the spec: `legacy_storage.NameToUid` (not under `src/`)
derives the resource UID of a receiver deterministically from its name;
modelled as the identity encoding, which like the real encoding is
injective. -/
def nameToUid (name : String) : String := name

/-- Externally visible calls made by the multi-org Alertmanager
orchestrator: reads and writes against the configuration store, the crypto
adapter, the live Alertmanager instance and the permission adapter, plus
the log line emitted when permission reconciliation fails. -/
inductive MOAEffect where
  | storeRead : MOAEffect
  | processSecure : MOAEffect
  | assignUIDs : MOAEffect
  | amLookup : MOAEffect
  | applyConfig : MOAEffect
  | deletePerm : String → MOAEffect
  | setDefaultPerm : String → MOAEffect
  | logCleanupError : MOAEffect
deriving DecidableEq

/-- `cleanPermissions` of the notifier package: extract the previous
receiver name set from the previous configuration, delete resource
permissions for every receiver present before but absent now, install
default permissions for every receiver present now but absent before.
Both sets are embedded as deduplicated lists (the Go set iteration order
is unspecified; the enumeration order used here carries no meaning).
`deleteErr` is the permission adapter's outcome per deleted UID; the
returned `Option String` is the joined error of the operation
(`SetDefaultPermissions` returns no error in the source). -/
def cleanPermissions (deleteErr : String → Option String) (previousConfig : Json)
    (newReceiverNames : List String) : List MOAEffect × Option String :=
  match extractReceiverNameList previousConfig with
  | .error e => ([], some ("failed to extract receiver names from previous configuration: " ++ e))
  | .ok previousReceiverNames =>
      let deleted := previousReceiverNames.filter (fun m => decide (m ∉ newReceiverNames))
      let added := newReceiverNames.dedup.filter (fun m => decide (m ∉ previousReceiverNames))
      let effects :=
        deleted.map (fun m => MOAEffect.deletePerm (nameToUid m)) ++
        added.map (fun m => MOAEffect.setDefaultPerm (nameToUid m))
      let errs := deleted.filterMap (fun m =>
        (deleteErr (nameToUid m)).map
          (fun e => "failed to delete permissions for receiver " ++ m ++ ": " ++ e))
      (effects, if errs.isEmpty then none else some (String.intercalate "; " errs))

/-- A previous configuration carrying receivers A, B and C. -/
def c1PrevDoc : Json :=
  Json.obj [("alertmanager_config", Json.obj
    [("receivers", Json.arr
       [Json.obj [("name", Json.str "A")],
        Json.obj [("name", Json.str "B")],
        Json.obj [("name", Json.str "C")]])])]

/-- A Grafana-managed receiver (contact point) as posted in a save call:
the UID plus the remaining posted fields. -/
structure PostableGrafanaReceiver where
  uid : String
  name : String
  rtype : String
  disableResolveMessage : Bool
  settings : String
  secureSettings : List (String × String)
deriving DecidableEq

/-- Modelled from the spec: `definitions.PostableApiReceiver.Type()` (not
under `src/`) classifies a receiver as Grafana-managed or not; modelled as
an explicit tag on the receiver. -/
inductive ReceiverType where
  | grafana : ReceiverType
  | alertmanager : ReceiverType
deriving DecidableEq

/-- A receiver entry of the posted alerting configuration. -/
structure PostableApiReceiver where
  name : String
  receiverType : ReceiverType
  grafanaManagedReceivers : List PostableGrafanaReceiver
deriving DecidableEq

/-- The bounded retry loop inside `assignReceiverConfigsUIDs`: up to
`retries` candidates are drawn from the generator stream `gen` (modelling
`util.GenerateShortUID`) starting at stream position `cnt`; the first
candidate not yet seen is kept, and the UID stays empty when every attempt
collides. Returns the chosen UID and the next stream position. -/
def genAttempts (gen : Nat → String) (seen : Finset String) : Nat → Nat → String × Nat
  | cnt, 0 => ("", cnt)
  | cnt, retries + 1 =>
      if gen cnt ∈ seen then genAttempts gen seen (cnt + 1) retries
      else (gen cnt, cnt + 1)

/-- The inner loop of `assignReceiverConfigsUIDs` over the Grafana-managed
receivers of one receiver entry: a receiver with an empty UID gets the
first of up to 5 generated candidates that is not yet in `seen` (erroring
when the UID is still empty afterwards), and every receiver's final UID is
added to `seen`. -/
def assignGrafanaUIDs (gen : Nat → String) :
    List PostableGrafanaReceiver → Finset String → Nat →
    Except String (List PostableGrafanaReceiver × Finset String × Nat)
  | [], seen, cnt => .ok ([], seen, cnt)
  | gr :: rest, seen, cnt =>
      if gr.uid = "" then
        match genAttempts gen seen cnt 5 with
        | (uid, cnt2) =>
            if uid = "" then
              .error "all 5 attempts to generate UID for receiver have failed; please retry"
            else
              match assignGrafanaUIDs gen rest (insert uid seen) cnt2 with
              | .error e => .error e
              | .ok (rest1, seen1, cnt1) => .ok ({ gr with uid := uid } :: rest1, seen1, cnt1)
      else
        match assignGrafanaUIDs gen rest (insert gr.uid seen) cnt with
        | .error e => .error e
        | .ok (rest1, seen1, cnt1) => .ok (gr :: rest1, seen1, cnt1)

/-- The outer loop of `assignReceiverConfigsUIDs` over receiver entries:
only Grafana-typed receivers are processed, every other entry is left
untouched and contributes nothing to the seen set. -/
def assignLoop (gen : Nat → String) :
    List PostableApiReceiver → Finset String → Nat →
    Except String (List PostableApiReceiver × Finset String × Nat)
  | [], seen, cnt => .ok ([], seen, cnt)
  | r :: rest, seen, cnt =>
      match r.receiverType with
      | ReceiverType.grafana =>
          match assignGrafanaUIDs gen r.grafanaManagedReceivers seen cnt with
          | .error e => .error e
          | .ok (grs, seen1, cnt1) =>
              match assignLoop gen rest seen1 cnt1 with
              | .error e => .error e
              | .ok (rest1, seen2, cnt2) =>
                  .ok ({ r with grafanaManagedReceivers := grs } :: rest1, seen2, cnt2)
      | ReceiverType.alertmanager =>
          match assignLoop gen rest seen cnt with
          | .error e => .error e
          | .ok (rest1, seen1, cnt1) => .ok (r :: rest1, seen1, cnt1)

/-- `assignReceiverConfigsUIDs` of the notifier package: assigns missing
UIDs to Grafana-managed receiver configs, starting from an empty seen set
and the beginning of the generator stream. -/
def assignReceiverConfigsUIDs (gen : Nat → String) (c : List PostableApiReceiver) :
    Except String (List PostableApiReceiver) :=
  match assignLoop gen c ∅ 0 with
  | .error e => .error e
  | .ok (out, _, _) => .ok out

/-- Insertion of a list of UIDs into a seen set, in order. -/
def insertList (seen : Finset String) : List String → Finset String
  | [] => seen
  | u :: us => insertList (insert u seen) us

/-- The UIDs of all Grafana-managed receivers under Grafana-typed entries,
in traversal order — exactly the positions `assignReceiverConfigsUIDs`
looks at. -/
def uidTrace : List PostableApiReceiver → List String
  | [] => []
  | r :: rest =>
      (match r.receiverType with
       | ReceiverType.grafana => r.grafanaManagedReceivers.map PostableGrafanaReceiver.uid
       | ReceiverType.alertmanager => []) ++ uidTrace rest

/-- Position-wise specification of UID assignment, threading the set of
UIDs seen so far: a position whose UID was empty now carries a non-empty
UID that was not seen at any earlier position (pre-existing or generated),
and every other position keeps its UID. -/
def freshAssign (seen : Finset String) : List String → List String → Bool
  | [], [] => true
  | old :: olds, new :: news =>
      (if old = "" then !(decide (new ∈ seen)) && !(decide (new = ""))
       else decide (new = old)) &&
      freshAssign (insert new seen) olds news
  | _, _ => false

/-- Frame predicate over one Grafana-managed receiver list: all fields
other than the UID are unchanged, and a non-empty UID is unchanged too. -/
def grFrame : List PostableGrafanaReceiver → List PostableGrafanaReceiver → Bool
  | [], [] => true
  | old :: olds, new :: news =>
      decide (new.name = old.name) && decide (new.rtype = old.rtype) &&
      decide (new.disableResolveMessage = old.disableResolveMessage) &&
      decide (new.settings = old.settings) &&
      decide (new.secureSettings = old.secureSettings) &&
      (decide (old.uid = "") || decide (new.uid = old.uid)) &&
      grFrame olds news
  | _, _ => false

/-- Frame predicate over the receiver entries of one save call: a
Grafana-typed entry keeps everything but possibly the UIDs of its empty-UID
receivers, every other entry is left completely unchanged. -/
def receiverFrame : List PostableApiReceiver → List PostableApiReceiver → Bool
  | [], [] => true
  | old :: olds, new :: news =>
      (match old.receiverType with
       | ReceiverType.grafana =>
           decide (new.name = old.name) && decide (new.receiverType = old.receiverType) &&
           grFrame old.grafanaManagedReceivers new.grafanaManagedReceivers
       | ReceiverType.alertmanager => decide (new = old)) &&
      receiverFrame olds news
  | _, _ => false

/-- A Grafana-managed receiver with the given UID and fixed other fields. -/
def mkGr (u : String) : PostableGrafanaReceiver :=
  { uid := u, name := "cp", rtype := "email", disableResolveMessage := false,
    settings := "addr", secureSettings := [("token", "ciphertext")] }

/-- Five receivers missing UIDs in a single save call. -/
def c8Receivers : List PostableApiReceiver :=
  [{ name := "r1", receiverType := ReceiverType.grafana,
     grafanaManagedReceivers := [mkGr "", mkGr "", mkGr "", mkGr "", mkGr ""] }]

/-- A generator stream producing five distinct short UIDs. -/
def c8GenFun : Nat → String := fun n => ["u0", "u1", "u2", "u3", "u4"].getD n "x"

/-- The expected result: all five receivers got distinct UIDs. -/
def c8Out : List PostableApiReceiver :=
  [{ name := "r1", receiverType := ReceiverType.grafana,
     grafanaManagedReceivers :=
       [mkGr "u0", mkGr "u1", mkGr "u2", mkGr "u3", mkGr "u4"] }]

/-- A mixed save call: a Grafana entry with one pre-existing and one
missing UID, and a non-Grafana entry. -/
def c10Receivers : List PostableApiReceiver :=
  [{ name := "g", receiverType := ReceiverType.grafana,
     grafanaManagedReceivers := [mkGr "keep", mkGr ""] },
   { name := "ext", receiverType := ReceiverType.alertmanager,
     grafanaManagedReceivers := [mkGr ""] }]

/-- The expected result: only the missing UID under the Grafana entry
changed. -/
def c10Out : List PostableApiReceiver :=
  [{ name := "g", receiverType := ReceiverType.grafana,
     grafanaManagedReceivers := [mkGr "keep", mkGr "w0"] },
   { name := "ext", receiverType := ReceiverType.alertmanager,
     grafanaManagedReceivers := [mkGr ""] }]

/-- A generator stream for the frame witness. -/
def c10Gen : Nat → String := fun n => ["w0", "w1"].getD n "x"

/-- Outcome of `configStore.GetLatestAlertmanagerConfiguration`: the
sentinel "no configuration yet" condition is distinguished from any other
store failure. -/
inductive GetLatestErr where
  | noAlertmanagerConfiguration : GetLatestErr
  | other : String → GetLatestErr
deriving DecidableEq

/-- A persisted configuration row, carrying the raw configuration
document. -/
structure AlertConfiguration where
  alertmanagerConfiguration : Json

/-- Outcome of the per-org live Alertmanager lookup (`AlertmanagerFor` /
`alertmanagerForOrg`): ready, not ready (a tolerated condition), or a
failure. -/
inductive AMLookup where
  | ok : AMLookup
  | notReady : AMLookup
  | err : String → AMLookup

/-- Outcome of `am.SaveAndApplyConfig`: the two reference errors the
orchestrator translates into user-facing conflicts, or any other
rejection. -/
inductive ApplyErr where
  | receiverDoesNotExist : String → ApplyErr
  | timeIntervalDoesNotExist : String → ApplyErr
  | other : String → ApplyErr

/-- An inhibition rule; only its presence matters to the orchestrator. -/
structure InhibitRule where
  content : String
deriving DecidableEq

/-- The posted alerting configuration: receivers and inhibition rules. -/
structure PostableApiAlertingConfig where
  receivers : List PostableApiReceiver
  inhibitRules : List InhibitRule
deriving DecidableEq

/-- The posted user configuration (the write model). -/
structure PostableUserConfig where
  alertmanagerConfig : PostableApiAlertingConfig
deriving DecidableEq

/-- The error taxonomy of the orchestrator's save paths. -/
inductive SaveErr where
  | validation : String → SaveErr
  | fatal : String → SaveErr
  | amNotFound : String → SaveErr
  | receiverInUse : String → SaveErr
  | timeIntervalInUse : String → SaveErr
  | rejected : String → SaveErr
deriving DecidableEq

/-- Collaborator oracles of `SaveAndApplyAlertmanagerConfiguration`. -/
structure SaveEnv where
  getLatest : Except GetLatestErr AlertConfiguration
  processSecureSettings : Except String Unit
  gen : Nat → String
  alertmanagerFor : AMLookup
  saveAndApplyConfig : Except ApplyErr Unit
  deletePermErr : String → Option String

/-- The new receiver name set built by the save path: the name of every
receiver entry of the posted configuration, inserted in order (the set is
embedded as its insertion list; `cleanPermissions` treats it as a set). -/
def newReceiverNamesOf (receivers : List PostableApiReceiver) : List String :=
  receivers.map PostableApiReceiver.name

/-- `SaveAndApplyAlertmanagerConfiguration` of the notifier package:
reject inhibition rules, load the previous configuration (tolerating the
no-configuration sentinel), process secure settings, assign missing UIDs,
apply to the live Alertmanager (translating in-use reference errors), and
finally reconcile permissions best-effort — a reconciliation failure is
only logged. Returns the operation's result and the trace of collaborator
calls. -/
def saveAndApplyAlertmanagerConfiguration (env : SaveEnv) (config : PostableUserConfig) :
    Except SaveErr Unit × List MOAEffect :=
  if config.alertmanagerConfig.inhibitRules.length > 0 then
    (.error (.validation "inhibition rules are not supported"), [])
  else
    match env.getLatest with
    | .error (GetLatestErr.other e) =>
        (.error (.fatal ("failed to get latest configuration " ++ e)), [MOAEffect.storeRead])
    | prevResult =>
        match env.processSecureSettings with
        | .error e =>
            (.error (.fatal ("failed to post process Alertmanager configuration: " ++ e)),
             [MOAEffect.storeRead, MOAEffect.processSecure])
        | .ok _ =>
            match assignReceiverConfigsUIDs env.gen config.alertmanagerConfig.receivers with
            | .error e =>
                (.error (.fatal ("failed to assign missing uids: " ++ e)),
                 [MOAEffect.storeRead, MOAEffect.processSecure, MOAEffect.assignUIDs])
            | .ok receivers1 =>
                match env.alertmanagerFor with
                | AMLookup.err e =>
                    (.error (.amNotFound e),
                     [MOAEffect.storeRead, MOAEffect.processSecure, MOAEffect.assignUIDs,
                      MOAEffect.amLookup])
                | _ =>
                    match env.saveAndApplyConfig with
                    | .error (ApplyErr.receiverDoesNotExist r) =>
                        (.error (.receiverInUse r),
                         [MOAEffect.storeRead, MOAEffect.processSecure, MOAEffect.assignUIDs,
                          MOAEffect.amLookup, MOAEffect.applyConfig])
                    | .error (ApplyErr.timeIntervalDoesNotExist r) =>
                        (.error (.timeIntervalInUse r),
                         [MOAEffect.storeRead, MOAEffect.processSecure, MOAEffect.assignUIDs,
                          MOAEffect.amLookup, MOAEffect.applyConfig])
                    | .error (ApplyErr.other e) =>
                        (.error (.rejected e),
                         [MOAEffect.storeRead, MOAEffect.processSecure, MOAEffect.assignUIDs,
                          MOAEffect.amLookup, MOAEffect.applyConfig])
                    | .ok _ =>
                        let cleanup :=
                          match prevResult with
                          | .ok previousConfig =>
                              cleanPermissions env.deletePermErr
                                previousConfig.alertmanagerConfiguration
                                (newReceiverNamesOf receivers1)
                          | .error _ => ([], some "no alertmanager configuration")
                        (.ok (),
                         [MOAEffect.storeRead, MOAEffect.processSecure, MOAEffect.assignUIDs,
                          MOAEffect.amLookup, MOAEffect.applyConfig] ++ cleanup.1 ++
                         (match cleanup.2 with
                          | some _ => [MOAEffect.logCleanupError]
                          | none => []))

/-- Collaborator oracles of `SaveAndApplyDefaultConfig`. -/
structure DefaultEnv where
  alertmanagerForOrg : Except String Unit
  getLatestFirst : Except GetLatestErr AlertConfiguration
  saveAndApplyDefault : Except String Unit
  getLatestSecond : Except GetLatestErr AlertConfiguration
  deletePermErr : String → Option String

/-- `SaveAndApplyDefaultConfig` of the notifier package: look up the
per-org Alertmanager, fetch the previous configuration best-effort, apply
the built-in default, then reconcile permissions against the receiver
names extracted from the re-fetched defaulted configuration — every
reconciliation failure (including the earlier fetch or the extraction
failing) is only logged. -/
def saveAndApplyDefaultConfig (env : DefaultEnv) : Except SaveErr Unit × List MOAEffect :=
  match env.alertmanagerForOrg with
  | .error e => (.error (.amNotFound e), [MOAEffect.amLookup])
  | .ok _ =>
      match env.saveAndApplyDefault with
      | .error e =>
          (.error (.rejected e),
           [MOAEffect.amLookup, MOAEffect.storeRead, MOAEffect.applyConfig])
      | .ok _ =>
          let cleanup :=
            match env.getLatestFirst with
            | .error _ => ([], some "failed to get latest configuration")
            | .ok previousConfig =>
                match env.getLatestSecond with
                | .error _ => ([MOAEffect.storeRead], some "failed to get latest configuration")
                | .ok defaultedConfig =>
                    match extractReceiverNameList defaultedConfig.alertmanagerConfiguration with
                    | .error e => ([MOAEffect.storeRead], some e)
                    | .ok newReceiverNames =>
                        let cp := cleanPermissions env.deletePermErr
                          previousConfig.alertmanagerConfiguration newReceiverNames
                        (MOAEffect.storeRead :: cp.1, cp.2)
          (.ok (),
           [MOAEffect.amLookup, MOAEffect.storeRead, MOAEffect.applyConfig] ++ cleanup.1 ++
           (match cleanup.2 with
            | some _ => [MOAEffect.logCleanupError]
            | none => []))

/-- A benign environment for the inhibition-rule rejection witness. -/
def c4Env : SaveEnv :=
  { getLatest := .error GetLatestErr.noAlertmanagerConfiguration,
    processSecureSettings := .ok (), gen := fun _ => "u",
    alertmanagerFor := AMLookup.ok, saveAndApplyConfig := .ok (),
    deletePermErr := fun _ => none }

/-- A posted configuration carrying one inhibition rule. -/
def c4Config : PostableUserConfig :=
  { alertmanagerConfig := { receivers := [], inhibitRules := [{ content := "rule" }] } }

/-- A save environment whose apply step succeeds while every permission
deletion fails (previous configuration: receivers A, B, C). -/
def c5Env : SaveEnv :=
  { getLatest := .ok { alertmanagerConfiguration := c1PrevDoc },
    processSecureSettings := .ok (), gen := fun _ => "u",
    alertmanagerFor := AMLookup.ok,
    saveAndApplyConfig := .ok (),
    deletePermErr := fun _ => some "permission backend unavailable" }

/-- A posted configuration with a single receiver D, so reconciliation
must delete A, B and C — and fails for each of them. -/
def c5Config : PostableUserConfig :=
  { alertmanagerConfig :=
      { receivers := [{ name := "D", receiverType := ReceiverType.grafana,
                        grafanaManagedReceivers := [mkGr "gd"] }],
        inhibitRules := [] } }

/-- A default-config environment whose apply succeeds while the
previous-configuration fetch for reconciliation fails. -/
def c5DEnv : DefaultEnv :=
  { alertmanagerForOrg := .ok (),
    getLatestFirst := .error GetLatestErr.noAlertmanagerConfiguration,
    saveAndApplyDefault := .ok (),
    getLatestSecond := .error GetLatestErr.noAlertmanagerConfiguration,
    deletePermErr := fun _ => none }

/-- Modelled from the spec: `definitions.ExtraConfiguration` (not under
`src/`) — a named secondary configuration blended with the main one,
identified by its `Identifier` string. -/
structure ExtraConfiguration where
  identifier : String
  alertmanagerConfig : String
deriving DecidableEq

/-- The loaded user configuration handled by the extra-configuration
helpers: the preserved main configuration plus the list of extra
configurations. `Load` is not under `src/`; its outcome is supplied by the
`loadCurrent` oracle. -/
structure LoadedUserConfig where
  mainConfig : String
  extraConfigs : List ExtraConfiguration
deriving DecidableEq

/-- Errors of the extra-configuration paths; the conflict carries the
identifier of the already-present extra configuration it names. -/
inductive ExtraErr where
  | multipleExtraConfigsUnsupported : String → ExtraErr
  | fatal : String → ExtraErr
  | amNotFound : String → ExtraErr
  | rejected : String → ExtraErr
deriving DecidableEq

/-- The externally visible write of the extra-configuration helpers: the
configuration handed to `am.SaveAndApplyConfig`. -/
inductive ExtraEffect where
  | saveAndApply : LoadedUserConfig → ExtraEffect
deriving DecidableEq

/-- Collaborator oracles of the extra-configuration helpers. -/
structure ExtraEnv where
  loadCurrent : Except String LoadedUserConfig
  alertmanagerFor : AMLookup
  saveAndApplyConfig : Except String Unit

/-- `modifyAndApplyExtraConfiguration` of the notifier package: load the
current configuration, apply `modifyFn` to its extra-configuration list,
and save and apply the result; a `modifyFn` failure aborts before any
apply. -/
def modifyAndApplyExtraConfiguration (env : ExtraEnv)
    (modifyFn : List ExtraConfiguration → Except ExtraErr (List ExtraConfiguration)) :
    Except ExtraErr Unit × List ExtraEffect :=
  match env.loadCurrent with
  | .error e => (.error (.fatal ("failed to get current configuration: " ++ e)), [])
  | .ok cfg =>
      match modifyFn cfg.extraConfigs with
      | .error e => (.error e, [])
      | .ok newExtras =>
          match env.alertmanagerFor with
          | AMLookup.err e => (.error (.amNotFound e), [])
          | _ =>
              match env.saveAndApplyConfig with
              | .error e =>
                  (.error (.rejected e),
                   [ExtraEffect.saveAndApply { cfg with extraConfigs := newExtras }])
              | .ok _ =>
                  (.ok (), [ExtraEffect.saveAndApply { cfg with extraConfigs := newExtras }])

/-- The first stored extra configuration whose identifier differs from the
supplied one, if any — the loop body of `SaveAndApplyExtraConfiguration`'s
modify function. -/
def firstConflicting (identifier : String) : List ExtraConfiguration → Option String
  | [] => none
  | c :: rest =>
      if c.identifier ≠ identifier then some c.identifier
      else firstConflicting identifier rest

/-- `SaveAndApplyExtraConfiguration` of the notifier package: replaces the
extra-configuration list with exactly the supplied one, after validating
that no stored extra configuration carries a different identifier —
otherwise the operation fails with a conflict naming the stored
identifier. -/
def saveAndApplyExtraConfiguration (env : ExtraEnv) (extraConfig : ExtraConfiguration) :
    Except ExtraErr Unit × List ExtraEffect :=
  modifyAndApplyExtraConfiguration env (fun configs =>
    match firstConflicting extraConfig.identifier configs with
    | some existing => .error (.multipleExtraConfigsUnsupported existing)
    | none => .ok [extraConfig])

/-- A current configuration with one stored extra configuration. -/
def c6Cfg : LoadedUserConfig :=
  { mainConfig := "main", extraConfigs := [{ identifier := "mimir-1", alertmanagerConfig := "extra" }] }

/-- An environment holding `c6Cfg` whose apply step succeeds. -/
def c6Env : ExtraEnv :=
  { loadCurrent := .ok c6Cfg, alertmanagerFor := AMLookup.ok, saveAndApplyConfig := .ok () }

/-- An extra configuration bearing a different identifier. -/
def c6Other : ExtraConfiguration := { identifier := "mimir-2", alertmanagerConfig := "other" }

/-- A replacement extra configuration bearing the stored identifier. -/
def c6Same : ExtraConfiguration := { identifier := "mimir-1", alertmanagerConfig := "replacement" }

/-- Provenance tags of provisionable resources. -/
inductive Provenance where
  | pnone : Provenance
  | api : Provenance
  | file : Provenance
deriving DecidableEq

/-- Modelled from the spec: a routing subtree (`definitions.Route` and its
shape validation `Route.Validate` are not under `src/`) — an opaque
payload together with its validation outcome. -/
structure Route where
  payload : String
  valid : Bool
deriving DecidableEq

/-- Modelled from the spec: `legacy_storage.ManagedRoute` (not under
`src/`) — a named routing subtree with a version token for optimistic
concurrency and a provenance tag. -/
structure ManagedRoute where
  name : String
  version : String
  route : Route
  provenance : Provenance
deriving DecidableEq

/-- Modelled from the spec: the well-known name of the user-defined
(default) routing tree (`legacy_storage.UserDefinedRoutingTreeName`, not
under `src/`). -/
def UserDefinedRoutingTreeName : String := "user-defined"

/-- The stored state the NotificationPolicyService operates on: the named
routes of the configuration revision plus the provenance side-table,
keyed by route name. -/
structure NPState where
  routes : List (String × ManagedRoute)
  provenances : List (String × Provenance)
deriving DecidableEq

/-- Error taxonomy of the NotificationPolicyService; a version conflict
carries the provided and the current version, in that order. -/
inductive NPErr where
  | routeNotFound : String → NPErr
  | versionConflict : String → String → NPErr
  | invalidFormat : String → NPErr
  | provenanceInvalid : String → NPErr
  | mergeIncompatible : String → NPErr
  | storeFailure : String → NPErr
deriving DecidableEq

/-- Writes performed against the configuration and provenance stores. -/
inductive NPWrite where
  | save : NPWrite
  | setProvenance : NPWrite
  | deleteProvenance : NPWrite
deriving DecidableEq

/-- Collaborator oracles of the NotificationPolicyService: store-access
failures, the pluggable provenance-transition validator, the version
fingerprint of a stored subtree, the merged-configuration compatibility
check, and the parse of the built-in default configuration's route. -/
structure NPEnv where
  getConfigErr : Option String
  getProvenanceErr : Option String
  validator : Provenance → Provenance → Option String
  fingerprint : Route → String
  mergeOK : List (String × ManagedRoute) → Bool
  saveErr : Option String
  setProvenanceErr : Option String
  deleteProvenanceErr : Option String
  defaultRouteParse : Except String Route

/-- The empty route name denotes the user-defined (default) tree. -/
def canonicalName (name : String) : String :=
  if name = "" then UserDefinedRoutingTreeName else name

/-- Removal of a named route from the revision. -/
def removeRoute (routes : List (String × ManagedRoute)) (name : String) :
    List (String × ManagedRoute) :=
  routes.filter (fun q => decide (q.1 ≠ name))

/-- `UpdateNamedRoute` on the revision: replace the named subtree and
recompute its version fingerprint. -/
def replaceRoute (fp : Route → String) (routes : List (String × ManagedRoute))
    (name : String) (newRoute : Route) : List (String × ManagedRoute) :=
  routes.map (fun q =>
    if q.1 = name then (q.1, { q.2 with route := newRoute, version := fp newRoute }) else q)

/-- Removal of a provenance record. -/
def removeProv (l : List (String × Provenance)) (name : String) :
    List (String × Provenance) :=
  l.filter (fun q => decide (q.1 ≠ name))

/-- `SetProvenance`: record a provenance, replacing any existing record. -/
def setProv (l : List (String × Provenance)) (name : String) (p : Provenance) :
    List (String × Provenance) :=
  (name, p) :: removeProv l name

/-- `GetProvenance` against the provenance store: an untracked resource
reads as `pnone`. -/
def provRead (env : NPEnv) (st : NPState) (name : String) : Except NPErr Provenance :=
  match env.getProvenanceErr with
  | some e => .error (.storeFailure e)
  | none => .ok ((List.lookup name st.provenances).getD Provenance.pnone)

/-- `checkOptimisticConcurrency` of the NotificationPolicyService: an
empty version opts out of the check (merely logged); a supplied version
must match the stored one, else the operation fails with a conflict naming
the provided and the current version. -/
def checkOptimisticConcurrency (current : ManagedRoute) (_provenance : Provenance)
    (desiredVersion : String) (_action : String) : Option NPErr :=
  if desiredVersion = "" then none
  else if current.version ≠ desiredVersion then
    some (.versionConflict desiredVersion current.version)
  else none

/-- `GetManagedRoute` of the NotificationPolicyService: canonicalise the
name, fetch the revision, look up the named route and annotate it with its
stored provenance. -/
def getManagedRoute (env : NPEnv) (st : NPState) (name : String) :
    Except NPErr ManagedRoute :=
  match env.getConfigErr with
  | some e => .error (.storeFailure e)
  | none =>
      match List.lookup (canonicalName name) st.routes with
      | none => .error (.routeNotFound ("route " ++ canonicalName name ++ " not found"))
      | some route =>
          match provRead env st (canonicalName name) with
          | .error e => .error e
          | .ok p => .ok { route with provenance := p }

/-- `DeleteManagedRoute` of the NotificationPolicyService: after the
concurrency and provenance checks, deleting the user-defined tree resets
it to the default configuration's route while any other named tree is
removed outright; the save and the provenance deletion run in one
transaction. Returns the result, the resulting state (unchanged on
failure) and the writes performed. -/
def deleteManagedRoute (env : NPEnv) (st : NPState) (name : String) (p : Provenance)
    (version : String) : Except NPErr Unit × NPState × List NPWrite :=
  match env.getConfigErr with
  | some e => (.error (.storeFailure e), st, [])
  | none =>
      match List.lookup (canonicalName name) st.routes with
      | none => (.error (.routeNotFound ""), st, [])
      | some existing =>
          match checkOptimisticConcurrency existing p version "delete" with
          | some e => (.error e, st, [])
          | none =>
              match provRead env st (canonicalName name) with
              | .error e => (.error e, st, [])
              | .ok storedProvenance =>
                  match env.validator storedProvenance p with
                  | some e => (.error (.provenanceInvalid e), st, [])
                  | none =>
                      match
                        (if canonicalName name = UserDefinedRoutingTreeName then
                          match env.defaultRouteParse with
                          | .error e =>
                              Except.error (NPErr.storeFailure
                                ("failed to parse default alertmanager config: " ++ e))
                          | .ok defaultRoute =>
                              Except.ok (replaceRoute env.fingerprint st.routes
                                (canonicalName name) defaultRoute)
                        else Except.ok (removeRoute st.routes (canonicalName name))) with
                      | .error e => (.error e, st, [])
                      | .ok routes1 =>
                          if env.mergeOK routes1 then
                            match env.saveErr with
                            | some e => (.error (.storeFailure e), st, [NPWrite.save])
                            | none =>
                                match env.deleteProvenanceErr with
                                | some e =>
                                    (.error (.storeFailure e), st,
                                     [NPWrite.save, NPWrite.deleteProvenance])
                                | none =>
                                    (.ok (),
                                     { routes := routes1,
                                       provenances :=
                                         removeProv st.provenances (canonicalName name) },
                                     [NPWrite.save, NPWrite.deleteProvenance])
                          else
                            (.error (.mergeIncompatible
                               "new routing tree is not compatible with extra configuration"),
                             st, [])

/-- `UpdateManagedRoute` of the NotificationPolicyService: validate the
subtree, look up the existing named route, run the optimistic-concurrency
check against the supplied version, validate the provenance transition,
replace the subtree, re-check merged-configuration compatibility, and save
together with the provenance record in one transaction. -/
def updateManagedRoute (env : NPEnv) (st : NPState) (name : String) (subtree : Route)
    (p : Provenance) (version : String) :
    Except NPErr ManagedRoute × NPState × List NPWrite :=
  if subtree.valid then
    match env.getConfigErr with
    | some e => (.error (.storeFailure e), st, [])
    | none =>
        match List.lookup (canonicalName name) st.routes with
        | none =>
            (.error (.routeNotFound
               ("failed to get existing named route " ++ canonicalName name)), st, [])
        | some existing =>
            match checkOptimisticConcurrency existing p version "update" with
            | some e => (.error e, st, [])
            | none =>
                match provRead env st (canonicalName name) with
                | .error e => (.error e, st, [])
                | .ok storedProvenance =>
                    match env.validator storedProvenance p with
                    | some e => (.error (.provenanceInvalid e), st, [])
                    | none =>
                        let routes1 :=
                          replaceRoute env.fingerprint st.routes (canonicalName name) subtree
                        if env.mergeOK routes1 then
                          match env.saveErr with
                          | some e => (.error (.storeFailure e), st, [NPWrite.save])
                          | none =>
                              match env.setProvenanceErr with
                              | some e =>
                                  (.error (.storeFailure e), st,
                                   [NPWrite.save, NPWrite.setProvenance])
                              | none =>
                                  (.ok { existing with
                                           route := subtree,
                                           version := env.fingerprint subtree,
                                           provenance := storedProvenance },
                                   { routes := routes1,
                                     provenances := setProv st.provenances (canonicalName name) p },
                                   [NPWrite.save, NPWrite.setProvenance])
                        else
                          (.error (.mergeIncompatible
                             "new routing tree is not compatible with extra configuration"),
                           st, [])
  else (.error (.invalidFormat "invalid format of the submitted route"), st, [])

/-- A stored route with version v1. -/
def c2Route : ManagedRoute :=
  { name := "team-a", version := "v1", route := { payload := "r", valid := true },
    provenance := Provenance.pnone }

/-- A state holding only the route team-a. -/
def c2State : NPState := { routes := [("team-a", c2Route)], provenances := [] }

/-- A fully healthy environment: conflicts are the only failure source. -/
def c2Env : NPEnv :=
  { getConfigErr := none, getProvenanceErr := none,
    validator := fun _ _ => none, fingerprint := fun r => r.payload,
    mergeOK := fun _ => true, saveErr := none, setProvenanceErr := none,
    deleteProvenanceErr := none,
    defaultRouteParse := .ok { payload := "default", valid := true } }

/-- A second stored route next to the default tree. -/
def c7Other : ManagedRoute :=
  { name := "team-b", version := "v7", route := { payload := "rb", valid := true },
    provenance := Provenance.pnone }

/-- A default-tree route as stored. -/
def c7Default : ManagedRoute :=
  { name := UserDefinedRoutingTreeName, version := "v1",
    route := { payload := "rd", valid := true }, provenance := Provenance.pnone }

/-- A state holding the default tree and one other named tree. -/
def c7State : NPState :=
  { routes := [(UserDefinedRoutingTreeName, c7Default), ("team-b", c7Other)],
    provenances := [] }

/-- A Grafana-managed receiver of the read model, with its provenance. -/
structure GettableGrafanaReceiver where
  uid : String
  name : String
  provenance : Provenance
deriving DecidableEq

/-- A receiver entry of the read model. -/
structure GettableApiReceiver where
  name : String
  grafanaManagedReceivers : List GettableGrafanaReceiver
deriving DecidableEq

/-- The routing tree of the read model, with its provenance. -/
structure GettableRoute where
  payload : String
  provenance : Provenance
deriving DecidableEq

/-- The read model returned by `GetAlertmanagerConfiguration`: template
files with their provenances, the routing tree, the receivers, and
mute-timing provenances. -/
structure GettableUserConfig where
  templateFiles : List (String × String)
  templateFileProvenances : List (String × Provenance)
  route : Option GettableRoute
  receivers : List GettableApiReceiver
  muteTimeProvenances : List (String × Provenance)
deriving DecidableEq

/-- The zero value `definitions.GettableUserConfig{}` of the read model. -/
def emptyGettableUserConfig : GettableUserConfig :=
  { templateFiles := [], templateFileProvenances := [], route := none,
    receivers := [], muteTimeProvenances := [] }

/-- Provenance-store oracles of `mergeProvenance`: one read for the route
and one `GetProvenances` per resource type (contact points, templates,
mute timings). -/
structure ProvEnv where
  routeProvenance : Except String Provenance
  contactPointProvenances : Except String (List (String × Provenance))
  templateProvenances : Except String (List (String × Provenance))
  muteTimingProvenances : Except String (List (String × Provenance))

/-- Annotation of one contact point with its stored provenance, when the
provenance map has an entry for its UID. -/
def annotateContactPoint (cpProvs : List (String × Provenance))
    (contactPoint : GettableGrafanaReceiver) : GettableGrafanaReceiver :=
  match List.lookup contactPoint.uid cpProvs with
  | some p => { contactPoint with provenance := p }
  | none => contactPoint

/-- Annotation of every contact point of one receiver entry. -/
def annotateReceiver (cpProvs : List (String × Provenance))
    (recv : GettableApiReceiver) : GettableApiReceiver :=
  { recv with grafanaManagedReceivers :=
      recv.grafanaManagedReceivers.map (annotateContactPoint cpProvs) }

/-- `mergeProvenance` of the notifier package, exactly as written: route
and contact-point provenance-read failures propagate as errors, but a
failure reading template or mute-timing provenances returns the zero-value
configuration with a nil error (the source's
`return definitions.GettableUserConfig, nil` arms). -/
def mergeProvenance (env : ProvEnv) (config : GettableUserConfig) :
    Except String GettableUserConfig :=
  match
    (match config.route with
     | none => Except.ok config
     | some r =>
         match env.routeProvenance with
         | .error e => .error e
         | .ok p => .ok { config with route := some { r with provenance := p } }) with
  | .error e => .error e
  | .ok cfg1 =>
      match env.contactPointProvenances with
      | .error e => .error e
      | .ok cpProvs =>
          let cfg2 := { cfg1 with receivers := cfg1.receivers.map (annotateReceiver cpProvs) }
          match env.templateProvenances with
          | .error _ => .ok emptyGettableUserConfig
          | .ok tmplProvs =>
              let cfg3 := { cfg2 with templateFileProvenances := tmplProvs }
              match env.muteTimingProvenances with
              | .error _ => .ok emptyGettableUserConfig
              | .ok mtProvs => .ok { cfg3 with muteTimeProvenances := mtProvs }

/-- A non-empty configuration to merge provenance into. -/
def c9Config : GettableUserConfig :=
  { templateFiles := [("tmpl", "body")], templateFileProvenances := [],
    route := some { payload := "root", provenance := Provenance.pnone },
    receivers := [{ name := "email", grafanaManagedReceivers :=
      [{ uid := "u1", name := "email", provenance := Provenance.pnone }] }],
    muteTimeProvenances := [] }

/-- An environment whose template-provenance read fails while everything
else succeeds. -/
def c9Env : ProvEnv :=
  { routeProvenance := .ok Provenance.api,
    contactPointProvenances := .ok [("u1", Provenance.api)],
    templateProvenances := .error "provenance store unavailable",
    muteTimingProvenances := .ok [] }

theorem foldKeyed_of_count_zero {α : Type} (key : String) (step : α → Json → Except String α)
    (cur : α) (fields : List (String × Json)) (h : countKey key fields = 0) :
    foldKeyed key step cur fields = .ok cur := by
  induction fields generalizing cur with
  | nil => rfl
  | cons kv rest ih =>
      obtain ⟨k, v⟩ := kv
      by_cases hk : asciiFold k = key
      · exfalso
        have : countKey key ((k, v) :: rest) = countKey key rest + 1 := by
          simp [countKey, List.filter_cons, hk]
        omega
      · have hrest : countKey key rest = 0 := by
          have : countKey key ((k, v) :: rest) = countKey key rest := by
            simp [countKey, List.filter_cons, hk]
          omega
        simp only [foldKeyed, hk, if_false]
        exact ih cur hrest

theorem foldKeyed_of_count_le_one {α : Type} (key : String) (step : α → Json → Except String α)
    (cur : α) (fields : List (String × Json)) (h : countKey key fields ≤ 1) :
    foldKeyed key step cur fields =
      (match findKey key fields with
       | none => .ok cur
       | some v => step cur v) := by
  induction fields generalizing cur with
  | nil => rfl
  | cons kv rest ih =>
      obtain ⟨k, v⟩ := kv
      by_cases hk : asciiFold k = key
      · have hrest : countKey key rest = 0 := by
          have : countKey key ((k, v) :: rest) = countKey key rest + 1 := by
            simp [countKey, List.filter_cons, hk]
          omega
        have hfind : findKey key ((k, v) :: rest) = some v := by
          simp [findKey, List.find?_cons, hk]
        rw [hfind]
        simp only [foldKeyed, hk, if_true]
        cases hstep : step cur v with
        | error e => rfl
        | ok cur1 => exact foldKeyed_of_count_zero key step cur1 rest hrest
      · have hrest : countKey key rest ≤ 1 := by
          have : countKey key ((k, v) :: rest) = countKey key rest := by
            simp [countKey, List.filter_cons, hk]
          omega
        have hfind : findKey key ((k, v) :: rest) = findKey key rest := by
          simp [findKey, List.find?_cons, hk]
        rw [hfind]
        simp only [foldKeyed, hk, if_false]
        exact ih cur hrest

theorem decodeReceiverInto_wellFormed (x : Json) (h : elemNameWellFormed x = true) :
    decodeReceiverInto { name := "" } x = .ok { name := elemNameOf x } := by
  cases x with
  | null => rfl
  | obj fields =>
      have hsplit := h
      simp only [elemNameWellFormed, Bool.and_eq_true, decide_eq_true_eq] at hsplit
      obtain ⟨hcount, hname⟩ := hsplit
      show fieldsIntoReceiver { name := "" } fields = _
      unfold fieldsIntoReceiver
      rw [foldKeyed_of_count_le_one "name" stepName { name := "" } fields hcount]
      cases hfind : findKey "name" fields with
      | none => simp [elemNameOf, hfind]
      | some v =>
          rw [hfind] at hname
          cases v with
          | null => simp [elemNameOf, hfind, stepName]
          | str s => simp [elemNameOf, hfind, stepName]
          | bool b => exact absurd hname (by simp)
          | num n => exact absurd hname (by simp)
          | arr xs => exact absurd hname (by simp)
          | obj fs => exact absurd hname (by simp)
  | bool b => exact absurd h (by simp [elemNameWellFormed])
  | num n => exact absurd h (by simp [elemNameWellFormed])
  | str s => exact absurd h (by simp [elemNameWellFormed])
  | arr xs => exact absurd h (by simp [elemNameWellFormed])

theorem decodeReceiverElems_wellFormed (xs : List Json) (h : xs.all elemNameWellFormed = true) :
    decodeReceiverElems [] xs = .ok (xs.map (fun x => { name := elemNameOf x })) := by
  induction xs with
  | nil => rfl
  | cons x rest ih =>
      rw [List.all_cons, Bool.and_eq_true] at h
      obtain ⟨hx, hrest⟩ := h
      show decodeReceiverElems [] (x :: rest) = _
      unfold decodeReceiverElems
      rw [show (([] : List SlimReceiver).headD { name := "" }) = { name := "" } from rfl]
      rw [decodeReceiverInto_wellFormed x hx]
      rw [show ([] : List SlimReceiver).tail = [] from rfl]
      rw [ih hrest]
      rfl

theorem list_toFinset_dedup (l : List String) : l.dedup.toFinset = l.toFinset := by
  ext a
  simp [List.mem_toFinset, List.mem_dedup]

theorem extractReceiverNameList_tolerant (j : Json) (h : receiversWellFormed j = true) :
    extractReceiverNameList j = .ok (receiverNameListOf j).dedup := by
  cases j with
  | null => rfl
  | obj fields =>
      simp only [receiversWellFormed, Bool.and_eq_true, decide_eq_true_eq] at h
      obtain ⟨hcount, hmatch⟩ := h
      show (match fieldsIntoTop [] fields with
            | .error e => Except.error ("unable to parse Alertmanager configuration: " ++ e)
            | .ok rs => .ok (rs.map SlimReceiver.name).dedup) = _
      unfold fieldsIntoTop
      rw [foldKeyed_of_count_le_one "alertmanager_config" decodeAMConfigValue [] fields hcount]
      cases hfind : findKey "alertmanager_config" fields with
      | none => simp [receiverNameListOf, hfind]
      | some v =>
          rw [hfind] at hmatch
          cases v with
          | null => simp [receiverNameListOf, hfind, decodeAMConfigValue]
          | obj acFields =>
              rw [Bool.and_eq_true, decide_eq_true_eq] at hmatch
              obtain ⟨hcount2, hmatch2⟩ := hmatch
              show (match fieldsIntoAMConfig [] acFields with
                    | .error e => Except.error ("unable to parse Alertmanager configuration: " ++ e)
                    | .ok rs => .ok (rs.map SlimReceiver.name).dedup) = _
              unfold fieldsIntoAMConfig
              rw [foldKeyed_of_count_le_one "receivers" decodeReceiversValue [] acFields hcount2]
              cases hfind2 : findKey "receivers" acFields with
              | none => simp [receiverNameListOf, hfind, hfind2]
              | some w =>
                  rw [hfind2] at hmatch2
                  cases w with
                  | null => simp [receiverNameListOf, hfind, hfind2, decodeReceiversValue]
                  | arr xs =>
                      show (match decodeReceiverElems [] xs with
                            | .error e => Except.error ("unable to parse Alertmanager configuration: " ++ e)
                            | .ok rs => .ok (rs.map SlimReceiver.name).dedup) = _
                      rw [decodeReceiverElems_wellFormed xs hmatch2]
                      simp only [receiverNameListOf, hfind, hfind2, List.map_map]
                      rfl
                  | bool b => exact absurd hmatch2 (by simp)
                  | num n => exact absurd hmatch2 (by simp)
                  | str s => exact absurd hmatch2 (by simp)
                  | obj fs => exact absurd hmatch2 (by simp)
          | bool b => exact absurd hmatch (by simp)
          | num n => exact absurd hmatch (by simp)
          | str s => exact absurd hmatch (by simp)
          | arr xs => exact absurd hmatch (by simp)
  | bool b => exact absurd h (by simp [receiversWellFormed])
  | num n => exact absurd h (by simp [receiversWellFormed])
  | str s => exact absurd h (by simp [receiversWellFormed])
  | arr xs => exact absurd h (by simp [receiversWellFormed])

/-- C3: on a document whose `alertmanager_config.receivers[].name` path is
well-formed, `extractReceiverNames` succeeds and returns exactly the set of
receiver names at that path, no matter how structurally invalid every
unrelated section of the document is. -/
theorem extractReceiverNames_tolerant (j : Json) (h : receiversWellFormed j = true) :
    extractReceiverNames j = .ok (receiverNamesOf j) := by
  unfold extractReceiverNames
  simp only [extractReceiverNameList_tolerant j h]
  rw [list_toFinset_dedup]
  rfl

theorem extractReceiverNames_tolerant_witness :
    receiversWellFormed c3Doc = true ∧
    extractReceiverNames c3Doc = .ok (receiverNamesOf c3Doc) ∧
    receiverNamesOf c3Doc = {"email", "slack"} :=
  ⟨by decide, extractReceiverNames_tolerant c3Doc (by decide), by decide⟩

theorem nameToUid_injective : Function.Injective nameToUid := fun _ _ h => h

theorem count_deletePerm_map (l : List String) (n : String) :
    (l.map (fun m => MOAEffect.deletePerm (nameToUid m))).count
      (MOAEffect.deletePerm (nameToUid n)) = l.count n := by
  refine List.count_map_of_injective l _ (fun a b h => ?_) n
  exact nameToUid_injective (by injection h)

theorem count_setDefaultPerm_map (l : List String) (n : String) :
    (l.map (fun m => MOAEffect.setDefaultPerm (nameToUid m))).count
      (MOAEffect.setDefaultPerm (nameToUid n)) = l.count n := by
  refine List.count_map_of_injective l _ (fun a b h => ?_) n
  exact nameToUid_injective (by injection h)

theorem count_deletePerm_in_setDefault_map (l : List String) (n : String) :
    (l.map (fun m => MOAEffect.setDefaultPerm (nameToUid m))).count
      (MOAEffect.deletePerm (nameToUid n)) = 0 := by
  rw [List.count_eq_zero]
  intro hmem
  obtain ⟨m, _, hm⟩ := List.mem_map.mp hmem
  exact MOAEffect.noConfusion hm

theorem count_setDefaultPerm_in_delete_map (l : List String) (n : String) :
    (l.map (fun m => MOAEffect.deletePerm (nameToUid m))).count
      (MOAEffect.setDefaultPerm (nameToUid n)) = 0 := by
  rw [List.count_eq_zero]
  intro hmem
  obtain ⟨m, _, hm⟩ := List.mem_map.mp hmem
  exact MOAEffect.noConfusion hm

theorem count_nodup_filter (l : List String) (hl : l.Nodup) (p : String → Bool) (n : String) :
    (l.filter p).count n = (if n ∈ l ∧ p n = true then 1 else 0) := by
  by_cases h : n ∈ l ∧ p n = true
  · rw [if_pos h]
    exact List.count_eq_one_of_mem (hl.filter p) (List.mem_filter.mpr h)
  · rw [if_neg h]
    refine List.count_eq_zero_of_not_mem (fun hmem => h ?_)
    exact List.mem_filter.mp hmem

theorem extractReceiverNameList_of_names (previousConfig : Json) (s : Finset String)
    (h : extractReceiverNames previousConfig = .ok s) :
    ∃ l, extractReceiverNameList previousConfig = .ok l ∧ l.toFinset = s ∧ l.Nodup := by
  unfold extractReceiverNames at h
  rcases hl : extractReceiverNameList previousConfig with e | l
  · rw [hl] at h
    exact absurd h (by simp)
  · rw [hl] at h
    simp only [Except.ok.injEq] at h
    refine ⟨l, rfl, h, ?_⟩
    rcases previousConfig with _ | b | i | s2 | xs | fields
    · simp only [extractReceiverNameList, Except.ok.injEq] at hl
      rw [← hl]
      exact List.nodup_nil
    · simp [extractReceiverNameList] at hl
    · simp [extractReceiverNameList] at hl
    · simp [extractReceiverNameList] at hl
    · simp [extractReceiverNameList] at hl
    · rcases hf : fieldsIntoTop [] fields with e | rs
      · simp [extractReceiverNameList, hf] at hl
      · simp only [extractReceiverNameList, hf, Except.ok.injEq] at hl
        rw [← hl]
        exact List.nodup_dedup _

/-- C1: for every pair of previous and new receiver name sets,
`cleanPermissions` deletes resource permissions exactly once for each name
in the previous set but not the new set, installs default permissions
exactly once for each name in the new set but not the previous set, and
performs no permission operation at all for names present in both sets. -/
theorem cleanPermissions_reconciles_exactly (deleteErr : String → Option String)
    (previousConfig : Json) (newReceiverNames : List String)
    (previousReceiverNames : Finset String) (n : String)
    (hprev : extractReceiverNames previousConfig = .ok previousReceiverNames) :
    (n ∈ previousReceiverNames → n ∉ newReceiverNames.toFinset →
       (cleanPermissions deleteErr previousConfig newReceiverNames).1.count
           (MOAEffect.deletePerm (nameToUid n)) = 1 ∧
       (cleanPermissions deleteErr previousConfig newReceiverNames).1.count
           (MOAEffect.setDefaultPerm (nameToUid n)) = 0) ∧
    (n ∈ newReceiverNames.toFinset → n ∉ previousReceiverNames →
       (cleanPermissions deleteErr previousConfig newReceiverNames).1.count
           (MOAEffect.setDefaultPerm (nameToUid n)) = 1 ∧
       (cleanPermissions deleteErr previousConfig newReceiverNames).1.count
           (MOAEffect.deletePerm (nameToUid n)) = 0) ∧
    (n ∈ previousReceiverNames → n ∈ newReceiverNames.toFinset →
       (cleanPermissions deleteErr previousConfig newReceiverNames).1.count
           (MOAEffect.deletePerm (nameToUid n)) = 0 ∧
       (cleanPermissions deleteErr previousConfig newReceiverNames).1.count
           (MOAEffect.setDefaultPerm (nameToUid n)) = 0) := by
  obtain ⟨l, hl, hlt, hnd⟩ :=
    extractReceiverNameList_of_names previousConfig previousReceiverNames hprev
  have hops : (cleanPermissions deleteErr previousConfig newReceiverNames).1 =
      (l.filter (fun m => decide (m ∉ newReceiverNames))).map
        (fun m => MOAEffect.deletePerm (nameToUid m)) ++
      (newReceiverNames.dedup.filter (fun m => decide (m ∉ l))).map
        (fun m => MOAEffect.setDefaultPerm (nameToUid m)) := by
    unfold cleanPermissions
    rw [hl]
  have hmemL : n ∈ l ↔ n ∈ previousReceiverNames := by
    rw [← hlt, List.mem_toFinset]
  refine ⟨fun h1 h2 => ?_, fun h1 h2 => ?_, fun h1 h2 => ?_⟩
  · have hn1 : n ∈ l := hmemL.mpr h1
    have hn2 : n ∉ newReceiverNames := fun hc => h2 (List.mem_toFinset.mpr hc)
    constructor
    · rw [hops, List.count_append, count_deletePerm_map,
        count_deletePerm_in_setDefault_map, count_nodup_filter l hnd]
      simp [hn1, hn2]
    · rw [hops, List.count_append, count_setDefaultPerm_in_delete_map,
        count_setDefaultPerm_map, count_nodup_filter _ (List.nodup_dedup _)]
      simp [List.mem_dedup, hn2]
  · have hn1 : n ∈ newReceiverNames := List.mem_toFinset.mp h1
    have hn2 : n ∉ l := fun hc => h2 (hmemL.mp hc)
    constructor
    · rw [hops, List.count_append, count_setDefaultPerm_in_delete_map,
        count_setDefaultPerm_map, count_nodup_filter _ (List.nodup_dedup _)]
      simp [List.mem_dedup, hn1, hn2]
    · rw [hops, List.count_append, count_deletePerm_map,
        count_deletePerm_in_setDefault_map, count_nodup_filter l hnd]
      simp [hn2]
  · have hn1 : n ∈ l := hmemL.mpr h1
    have hn2 : n ∈ newReceiverNames := List.mem_toFinset.mp h2
    constructor
    · rw [hops, List.count_append, count_deletePerm_map,
        count_deletePerm_in_setDefault_map, count_nodup_filter l hnd]
      simp [hn2]
    · rw [hops, List.count_append, count_setDefaultPerm_in_delete_map,
        count_setDefaultPerm_map, count_nodup_filter _ (List.nodup_dedup _)]
      simp [hn1]

theorem cleanPermissions_reconciles_exactly_witness :
    (cleanPermissions (fun _ => none) c1PrevDoc ["B", "C", "D"]).1.count
        (MOAEffect.deletePerm (nameToUid "A")) = 1 ∧
    (cleanPermissions (fun _ => none) c1PrevDoc ["B", "C", "D"]).1.count
        (MOAEffect.setDefaultPerm (nameToUid "D")) = 1 ∧
    (cleanPermissions (fun _ => none) c1PrevDoc ["B", "C", "D"]).1.count
        (MOAEffect.deletePerm (nameToUid "B")) = 0 ∧
    (cleanPermissions (fun _ => none) c1PrevDoc ["B", "C", "D"]).1.count
        (MOAEffect.setDefaultPerm (nameToUid "B")) = 0 := by
  have hA := cleanPermissions_reconciles_exactly (fun _ => none) c1PrevDoc
    ["B", "C", "D"] {"A", "B", "C"} "A" (by decide)
  have hD := cleanPermissions_reconciles_exactly (fun _ => none) c1PrevDoc
    ["B", "C", "D"] {"A", "B", "C"} "D" (by decide)
  have hB := cleanPermissions_reconciles_exactly (fun _ => none) c1PrevDoc
    ["B", "C", "D"] {"A", "B", "C"} "B" (by decide)
  exact ⟨(hA.1 (by decide) (by decide)).1, (hD.2.1 (by decide) (by decide)).1,
    (hB.2.2 (by decide) (by decide)).1, (hB.2.2 (by decide) (by decide)).2⟩

theorem genAttempts_fresh (gen : Nat → String) (seen : Finset String) :
    ∀ (retries cnt : Nat), (genAttempts gen seen cnt retries).1 ≠ "" →
      (genAttempts gen seen cnt retries).1 ∉ seen := by
  intro retries
  induction retries with
  | zero => intro cnt h; exact absurd rfl h
  | succ k ih =>
      intro cnt h
      by_cases hg : gen cnt ∈ seen
      · rw [show genAttempts gen seen cnt (k + 1) = genAttempts gen seen (cnt + 1) k by
          simp [genAttempts, hg]] at h ⊢
        exact ih (cnt + 1) h
      · simp [genAttempts, hg]

theorem genAttempts_exhausted (gen : Nat → String) (seen : Finset String) :
    ∀ (retries cnt : Nat), (∀ i, i < retries → gen (cnt + i) ∈ seen) →
      genAttempts gen seen cnt retries = ("", cnt + retries) := by
  intro retries
  induction retries with
  | zero => intro cnt _; rfl
  | succ k ih =>
      intro cnt h
      have h0 : gen cnt ∈ seen := by
        have := h 0 (by omega)
        simpa using this
      have hrec := ih (cnt + 1) (fun i hi => by
        have := h (i + 1) (by omega)
        have harith : cnt + (i + 1) = cnt + 1 + i := by omega
        rwa [harith] at this)
      rw [show genAttempts gen seen cnt (k + 1) = genAttempts gen seen (cnt + 1) k by
        simp [genAttempts, h0]]
      rw [hrec]
      have : cnt + 1 + k = cnt + (k + 1) := by omega
      rw [this]

theorem insertList_append (seen : Finset String) (a b : List String) :
    insertList seen (a ++ b) = insertList (insertList seen a) b := by
  induction a generalizing seen with
  | nil => rfl
  | cons u us ih => exact ih (insert u seen)

theorem freshAssign_append (seen : Finset String) (a a1 b b1 : List String)
    (ha : freshAssign seen a a1 = true)
    (hb : freshAssign (insertList seen a1) b b1 = true) :
    freshAssign seen (a ++ b) (a1 ++ b1) = true := by
  induction a generalizing seen a1 with
  | nil =>
      cases a1 with
      | nil => simpa using hb
      | cons x xs => exact absurd ha (by simp [freshAssign])
  | cons old olds ih =>
      cases a1 with
      | nil => exact absurd ha (by simp [freshAssign])
      | cons new news =>
          simp only [freshAssign, Bool.and_eq_true] at ha
          obtain ⟨hhead, htail⟩ := ha
          simp only [List.cons_append, freshAssign, Bool.and_eq_true]
          refine ⟨hhead, ?_⟩
          exact ih (insert new seen) news htail (by simpa [insertList] using hb)

theorem assignGrafanaUIDs_ok (gen : Nat → String) (l : List PostableGrafanaReceiver) :
    ∀ (seen : Finset String) (cnt : Nat) (out : List PostableGrafanaReceiver)
      (seen1 : Finset String) (cnt1 : Nat),
      assignGrafanaUIDs gen l seen cnt = .ok (out, seen1, cnt1) →
      freshAssign seen (l.map PostableGrafanaReceiver.uid)
          (out.map PostableGrafanaReceiver.uid) = true ∧
      seen1 = insertList seen (out.map PostableGrafanaReceiver.uid) ∧
      grFrame l out = true := by
  induction l with
  | nil =>
      intro seen cnt out seen1 cnt1 h
      simp only [assignGrafanaUIDs, Except.ok.injEq, Prod.mk.injEq] at h
      obtain ⟨h1, h2, h3⟩ := h
      subst h1; subst h2
      exact ⟨rfl, rfl, rfl⟩
  | cons gr rest ih =>
      intro seen cnt out seen1 cnt1 h
      by_cases huid : gr.uid = ""
      · rw [show assignGrafanaUIDs gen (gr :: rest) seen cnt =
              (match genAttempts gen seen cnt 5 with
               | (uid, cnt2) =>
                   if uid = "" then
                     .error "all 5 attempts to generate UID for receiver have failed; please retry"
                   else
                     match assignGrafanaUIDs gen rest (insert uid seen) cnt2 with
                     | .error e => .error e
                     | .ok (rest1, seen1, cnt1) =>
                         .ok ({ gr with uid := uid } :: rest1, seen1, cnt1)) by
            simp [assignGrafanaUIDs, huid]] at h
        rcases hga : genAttempts gen seen cnt 5 with ⟨uid, cnt2⟩
        rw [hga] at h
        simp only at h
        by_cases hu : uid = ""
        · rw [if_pos hu] at h
          exact absurd h (by simp)
        · rw [if_neg hu] at h
          rcases hrec : assignGrafanaUIDs gen rest (insert uid seen) cnt2 with e | ⟨rest1, seen2, cnt3⟩
          · rw [hrec] at h
            exact absurd h (by simp)
          · rw [hrec] at h
            simp only [Except.ok.injEq, Prod.mk.injEq] at h
            obtain ⟨h1, h2, h3⟩ := h
            subst h1; subst h2
            obtain ⟨ihf, ihs, ihframe⟩ := ih (insert uid seen) cnt2 rest1 seen2 cnt3 hrec
            have hfresh : uid ∉ seen := by
              have := genAttempts_fresh gen seen 5 cnt
              rw [hga] at this
              exact this hu
            refine ⟨?_, ?_, ?_⟩
            · show freshAssign seen (gr.uid :: rest.map PostableGrafanaReceiver.uid)
                (uid :: rest1.map PostableGrafanaReceiver.uid) = true
              simp only [freshAssign, Bool.and_eq_true]
              rw [if_pos huid]
              exact ⟨by simp [hfresh, hu], ihf⟩
            · exact ihs
            · show grFrame (gr :: rest) ({ gr with uid := uid } :: rest1) = true
              simp only [grFrame, Bool.and_eq_true, Bool.or_eq_true]
              exact ⟨⟨⟨⟨⟨⟨by simp, by simp⟩, by simp⟩, by simp⟩, by simp⟩,
                Or.inl (by simp [huid])⟩, ihframe⟩
      · rw [show assignGrafanaUIDs gen (gr :: rest) seen cnt =
              (match assignGrafanaUIDs gen rest (insert gr.uid seen) cnt with
               | .error e => .error e
               | .ok (rest1, seen1, cnt1) => .ok (gr :: rest1, seen1, cnt1)) by
            simp [assignGrafanaUIDs, huid]] at h
        rcases hrec : assignGrafanaUIDs gen rest (insert gr.uid seen) cnt with e | ⟨rest1, seen2, cnt3⟩
        · rw [hrec] at h
          exact absurd h (by simp)
        · rw [hrec] at h
          simp only [Except.ok.injEq, Prod.mk.injEq] at h
          obtain ⟨h1, h2, h3⟩ := h
          subst h1; subst h2
          obtain ⟨ihf, ihs, ihframe⟩ := ih (insert gr.uid seen) cnt rest1 seen2 cnt3 hrec
          refine ⟨?_, ?_, ?_⟩
          · show freshAssign seen (gr.uid :: rest.map PostableGrafanaReceiver.uid)
              (gr.uid :: rest1.map PostableGrafanaReceiver.uid) = true
            simp only [freshAssign, Bool.and_eq_true]
            rw [if_neg huid]
            exact ⟨by simp, ihf⟩
          · exact ihs
          · show grFrame (gr :: rest) (gr :: rest1) = true
            simp only [grFrame, Bool.and_eq_true, Bool.or_eq_true]
            exact ⟨⟨⟨⟨⟨⟨by simp, by simp⟩, by simp⟩, by simp⟩, by simp⟩,
              Or.inr (by simp)⟩, ihframe⟩

theorem assignLoop_ok (gen : Nat → String) (rs : List PostableApiReceiver) :
    ∀ (seen : Finset String) (cnt : Nat) (out : List PostableApiReceiver)
      (seen1 : Finset String) (cnt1 : Nat),
      assignLoop gen rs seen cnt = .ok (out, seen1, cnt1) →
      freshAssign seen (uidTrace rs) (uidTrace out) = true ∧
      seen1 = insertList seen (uidTrace out) ∧
      receiverFrame rs out = true := by
  induction rs with
  | nil =>
      intro seen cnt out seen1 cnt1 h
      simp only [assignLoop, Except.ok.injEq, Prod.mk.injEq] at h
      obtain ⟨h1, h2, h3⟩ := h
      subst h1; subst h2
      exact ⟨rfl, rfl, rfl⟩
  | cons r rest ih =>
      intro seen cnt out seen1 cnt1 h
      cases htype : r.receiverType with
      | grafana =>
          rw [show assignLoop gen (r :: rest) seen cnt =
                (match assignGrafanaUIDs gen r.grafanaManagedReceivers seen cnt with
                 | .error e => .error e
                 | .ok (grs, seen1, cnt1) =>
                     match assignLoop gen rest seen1 cnt1 with
                     | .error e => .error e
                     | .ok (rest1, seen2, cnt2) =>
                         .ok ({ r with grafanaManagedReceivers := grs } :: rest1, seen2, cnt2)) by
              simp [assignLoop, htype]] at h
          rcases hgr : assignGrafanaUIDs gen r.grafanaManagedReceivers seen cnt
            with e | ⟨grs, seen2, cnt2⟩
          · rw [hgr] at h
            exact absurd h (by simp)
          · simp only [hgr] at h
            rcases hloop : assignLoop gen rest seen2 cnt2 with e | ⟨rest1, seen3, cnt3⟩
            · rw [hloop] at h
              exact absurd h (by simp)
            · rw [hloop] at h
              simp only [Except.ok.injEq, Prod.mk.injEq] at h
              obtain ⟨h1, h2, h3⟩ := h
              subst h1; subst h2
              obtain ⟨hgf, hgs, hgframe⟩ :=
                assignGrafanaUIDs_ok gen r.grafanaManagedReceivers seen cnt grs seen2 cnt2 hgr
              obtain ⟨hlf, hls, hlframe⟩ := ih seen2 cnt2 rest1 seen3 cnt3 hloop
              have htrace : uidTrace ({ r with grafanaManagedReceivers := grs } :: rest1) =
                  grs.map PostableGrafanaReceiver.uid ++ uidTrace rest1 := by
                simp [uidTrace, htype]
              have htrace2 : uidTrace (r :: rest) =
                  r.grafanaManagedReceivers.map PostableGrafanaReceiver.uid ++ uidTrace rest := by
                simp [uidTrace, htype]
              refine ⟨?_, ?_, ?_⟩
              · rw [htrace, htrace2]
                refine freshAssign_append seen _ _ _ _ hgf ?_
                rw [← hgs]
                exact hlf
              · rw [htrace, insertList_append, ← hgs]
                exact hls
              · show receiverFrame (r :: rest) _ = true
                simp only [receiverFrame, htype, Bool.and_eq_true]
                exact ⟨⟨⟨by simp, by simp⟩, by simpa using hgframe⟩, hlframe⟩
      | alertmanager =>
          rw [show assignLoop gen (r :: rest) seen cnt =
                (match assignLoop gen rest seen cnt with
                 | .error e => .error e
                 | .ok (rest1, seen1, cnt1) => .ok (r :: rest1, seen1, cnt1)) by
              simp [assignLoop, htype]] at h
          rcases hloop : assignLoop gen rest seen cnt with e | ⟨rest1, seen3, cnt3⟩
          · rw [hloop] at h
            exact absurd h (by simp)
          · rw [hloop] at h
            simp only [Except.ok.injEq, Prod.mk.injEq] at h
            obtain ⟨h1, h2, h3⟩ := h
            subst h1; subst h2
            obtain ⟨hlf, hls, hlframe⟩ := ih seen cnt rest1 seen3 cnt3 hloop
            have htrace : uidTrace (r :: rest1) = uidTrace rest1 := by
              simp [uidTrace, htype]
            have htrace2 : uidTrace (r :: rest) = uidTrace rest := by
              simp [uidTrace, htype]
            refine ⟨?_, ?_, ?_⟩
            · rw [htrace, htrace2]; exact hlf
            · rw [htrace]; exact hls
            · show receiverFrame (r :: rest) (r :: rest1) = true
              simp only [receiverFrame, htype, Bool.and_eq_true]
              exact ⟨by simp, hlframe⟩

/-- C8: in a single save call, every Grafana-managed receiver whose UID is
empty receives a generated UID that is non-empty and distinct from every
UID already seen in this call — pre-existing or generated earlier — while
generation retries at most 5 candidates per receiver; when all 5
candidates collide with the seen set the whole operation fails with an
error, and an inner failure aborts the whole save. -/
theorem assignReceiverConfigsUIDs_fresh :
    (∀ (gen : Nat → String) (rs out : List PostableApiReceiver),
        assignReceiverConfigsUIDs gen rs = .ok out →
        freshAssign ∅ (uidTrace rs) (uidTrace out) = true) ∧
    (∀ (gen : Nat → String) (gr : PostableGrafanaReceiver)
        (rest : List PostableGrafanaReceiver) (seen : Finset String) (cnt : Nat),
        gr.uid = "" → (∀ i, i < 5 → gen (cnt + i) ∈ seen) →
        assignGrafanaUIDs gen (gr :: rest) seen cnt =
          .error "all 5 attempts to generate UID for receiver have failed; please retry") ∧
    (∀ (gen : Nat → String) (r : PostableApiReceiver) (rest : List PostableApiReceiver)
        (seen : Finset String) (cnt : Nat) (e : String),
        r.receiverType = ReceiverType.grafana →
        assignGrafanaUIDs gen r.grafanaManagedReceivers seen cnt = .error e →
        assignLoop gen (r :: rest) seen cnt = .error e) ∧
    (∀ (gen : Nat → String) (rs : List PostableApiReceiver) (e : String),
        assignLoop gen rs ∅ 0 = .error e →
        assignReceiverConfigsUIDs gen rs = .error e) := by
  refine ⟨?_, ?_, ?_, ?_⟩
  · intro gen rs out h
    unfold assignReceiverConfigsUIDs at h
    rcases hloop : assignLoop gen rs ∅ 0 with e | ⟨out1, seen1, cnt1⟩
    · rw [hloop] at h
      exact absurd h (by simp)
    · rw [hloop] at h
      simp only [Except.ok.injEq] at h
      subst h
      exact (assignLoop_ok gen rs ∅ 0 out1 seen1 cnt1 hloop).1
  · intro gen gr rest seen cnt huid hcollide
    have hex := genAttempts_exhausted gen seen 5 cnt hcollide
    simp [assignGrafanaUIDs, huid, hex]
  · intro gen r rest seen cnt e htype herr
    simp [assignLoop, htype, herr]
  · intro gen rs e h
    simp [assignReceiverConfigsUIDs, h]

/-- C10: `assignReceiverConfigsUIDs` modifies only the UID field of
Grafana-managed receivers whose UID is empty; receivers with a non-empty
UID, every other field of every receiver, and every receiver entry of a
non-Grafana type come out unchanged. -/
theorem assignReceiverConfigsUIDs_frame (gen : Nat → String)
    (rs out : List PostableApiReceiver)
    (h : assignReceiverConfigsUIDs gen rs = .ok out) :
    receiverFrame rs out = true := by
  unfold assignReceiverConfigsUIDs at h
  rcases hloop : assignLoop gen rs ∅ 0 with e | ⟨out1, seen1, cnt1⟩
  · rw [hloop] at h
    exact absurd h (by simp)
  · rw [hloop] at h
    simp only [Except.ok.injEq] at h
    subst h
    exact (assignLoop_ok gen rs ∅ 0 out1 seen1 cnt1 hloop).2.2

theorem assignReceiverConfigsUIDs_fresh_witness :
    assignReceiverConfigsUIDs c8GenFun c8Receivers = .ok c8Out ∧
    freshAssign ∅ (uidTrace c8Receivers) (uidTrace c8Out) = true ∧
    assignGrafanaUIDs (fun _ => "dup") [mkGr ""] {"dup"} 0 =
      .error "all 5 attempts to generate UID for receiver have failed; please retry" := by
  refine ⟨by decide, ?_, ?_⟩
  · exact assignReceiverConfigsUIDs_fresh.1 c8GenFun c8Receivers c8Out (by decide)
  · exact assignReceiverConfigsUIDs_fresh.2.1 (fun _ => "dup") (mkGr "") [] {"dup"} 0
      (by decide) (by decide)

theorem assignReceiverConfigsUIDs_frame_witness :
    assignReceiverConfigsUIDs c10Gen c10Receivers = .ok c10Out ∧
    receiverFrame c10Receivers c10Out = true :=
  ⟨by decide, assignReceiverConfigsUIDs_frame c10Gen c10Receivers c10Out (by decide)⟩

/-- C4: a posted configuration with at least one inhibition rule is
rejected with a validation error before any collaborator call — no store
read or write, no secure-settings processing, no UID assignment and no
application to the live Alertmanager takes place. -/
theorem saveAndApply_rejects_inhibition_rules (env : SaveEnv) (config : PostableUserConfig)
    (h : config.alertmanagerConfig.inhibitRules ≠ []) :
    saveAndApplyAlertmanagerConfiguration env config =
      (.error (.validation "inhibition rules are not supported"), []) := by
  unfold saveAndApplyAlertmanagerConfiguration
  rw [if_pos (List.length_pos.mpr h)]

theorem saveAndApply_rejects_inhibition_rules_witness :
    saveAndApplyAlertmanagerConfiguration c4Env c4Config =
      (.error (.validation "inhibition rules are not supported"), []) :=
  saveAndApply_rejects_inhibition_rules c4Env c4Config (by decide)

/-- C5: once the configuration write/apply step has succeeded, both
`SaveAndApplyAlertmanagerConfiguration` and `SaveAndApplyDefaultConfig`
report success whatever the permission-reconciliation oracles do
(previous-configuration fetch, receiver-name extraction and permission
deletion are universally quantified); a failing reconciliation surfaces
only as a log effect in the trace, never as the operation's error. -/
theorem cleanPermissions_failure_never_primary_error
    (env : SaveEnv) (config : PostableUserConfig) (out : List PostableApiReceiver)
    (denv : DefaultEnv)
    (h1 : config.alertmanagerConfig.inhibitRules = [])
    (h2 : ∀ e, env.getLatest ≠ .error (GetLatestErr.other e))
    (h3 : env.processSecureSettings = .ok ())
    (h4 : assignReceiverConfigsUIDs env.gen config.alertmanagerConfig.receivers = .ok out)
    (h5 : ∀ e, env.alertmanagerFor ≠ AMLookup.err e)
    (h6 : env.saveAndApplyConfig = .ok ())
    (h7 : denv.alertmanagerForOrg = .ok ())
    (h8 : denv.saveAndApplyDefault = .ok ()) :
    (saveAndApplyAlertmanagerConfiguration env config).1 = .ok () ∧
    (∀ prev, env.getLatest = .ok prev →
       (cleanPermissions env.deletePermErr prev.alertmanagerConfiguration
           (newReceiverNamesOf out)).2 ≠ none →
       MOAEffect.logCleanupError ∈ (saveAndApplyAlertmanagerConfiguration env config).2) ∧
    (saveAndApplyDefaultConfig denv).1 = .ok () := by
  have hif : ¬ (config.alertmanagerConfig.inhibitRules.length > 0) := by simp [h1]
  refine ⟨?_, ?_, ?_⟩
  · rcases hget : env.getLatest with ge | prev
    · cases ge with
      | noAlertmanagerConfiguration =>
          unfold saveAndApplyAlertmanagerConfiguration
          rw [if_neg hif]
          simp only [hget, h3, h4]
          rcases ham : env.alertmanagerFor with _ | _ | e
          · simp only [h6]
          · simp only [h6]
          · exact absurd ham (h5 e)
      | other e => exact absurd hget (h2 e)
    · unfold saveAndApplyAlertmanagerConfiguration
      rw [if_neg hif]
      simp only [hget, h3, h4]
      rcases ham : env.alertmanagerFor with _ | _ | e
      · simp only [h6]
      · simp only [h6]
      · exact absurd ham (h5 e)
  · intro prev hprev hne
    obtain ⟨er, her⟩ := Option.ne_none_iff_exists'.mp hne
    unfold saveAndApplyAlertmanagerConfiguration
    rw [if_neg hif]
    simp only [hprev, h3, h4]
    rcases ham : env.alertmanagerFor with _ | _ | e
    · simp only [h6, her]
      simp [List.mem_append]
    · simp only [h6, her]
      simp [List.mem_append]
    · exact absurd ham (h5 e)
  · unfold saveAndApplyDefaultConfig
    simp only [h7, h8]

theorem cleanPermissions_failure_never_primary_error_witness :
    (saveAndApplyAlertmanagerConfiguration c5Env c5Config).1 = .ok () ∧
    MOAEffect.logCleanupError ∈ (saveAndApplyAlertmanagerConfiguration c5Env c5Config).2 ∧
    (saveAndApplyDefaultConfig c5DEnv).1 = .ok () := by
  have h := cleanPermissions_failure_never_primary_error c5Env c5Config
    c5Config.alertmanagerConfig.receivers c5DEnv
    rfl (fun e hc => by simp [c5Env] at hc) rfl rfl
    (fun e hc => by simp [c5Env] at hc) rfl rfl rfl
  exact ⟨h.1, h.2.1 { alertmanagerConfiguration := c1PrevDoc } rfl (by decide), h.2.2⟩

/-- C6: with exactly one extra configuration stored, saving an extra
configuration under a different identifier fails with a conflict naming
the stored identifier and performs no write at all, while saving under the
same identifier succeeds and hands the live Alertmanager a configuration
whose extra-configuration list is exactly the supplied one (main
configuration preserved). -/
theorem saveAndApplyExtraConfiguration_single (env : ExtraEnv)
    (extraConfig existing : ExtraConfiguration) (cfg : LoadedUserConfig)
    (hload : env.loadCurrent = .ok cfg)
    (hone : cfg.extraConfigs = [existing]) :
    (existing.identifier ≠ extraConfig.identifier →
       saveAndApplyExtraConfiguration env extraConfig =
         (.error (.multipleExtraConfigsUnsupported existing.identifier), [])) ∧
    (existing.identifier = extraConfig.identifier →
     (∀ e, env.alertmanagerFor ≠ AMLookup.err e) →
     env.saveAndApplyConfig = .ok () →
       saveAndApplyExtraConfiguration env extraConfig =
         (.ok (), [ExtraEffect.saveAndApply
           { mainConfig := cfg.mainConfig, extraConfigs := [extraConfig] }])) := by
  constructor
  · intro hne
    unfold saveAndApplyExtraConfiguration modifyAndApplyExtraConfiguration
    simp only [hload, hone, firstConflicting, if_pos hne]
  · intro heq ham happly
    unfold saveAndApplyExtraConfiguration modifyAndApplyExtraConfiguration
    have hif : (if existing.identifier ≠ extraConfig.identifier
        then some existing.identifier else none) = none := if_neg (not_not_intro heq)
    simp only [hload, hone, firstConflicting, hif]
    rcases hamv : env.alertmanagerFor with _ | _ | e
    · simp only [happly]
    · simp only [happly]
    · exact absurd hamv (ham e)

theorem saveAndApplyExtraConfiguration_single_witness :
    saveAndApplyExtraConfiguration c6Env c6Other =
      (.error (.multipleExtraConfigsUnsupported "mimir-1"), []) ∧
    saveAndApplyExtraConfiguration c6Env c6Same =
      (.ok (), [ExtraEffect.saveAndApply { mainConfig := "main", extraConfigs := [c6Same] }]) := by
  constructor
  · exact (saveAndApplyExtraConfiguration_single c6Env c6Other
      { identifier := "mimir-1", alertmanagerConfig := "extra" } c6Cfg rfl rfl).1 (by decide)
  · exact (saveAndApplyExtraConfiguration_single c6Env c6Same
      { identifier := "mimir-1", alertmanagerConfig := "extra" } c6Cfg rfl rfl).2 rfl
      (fun e hc => by simp [c6Env] at hc) rfl

/-- C2: for every stored managed route and every non-empty supplied
version differing from the stored one, `UpdateManagedRoute` and
`DeleteManagedRoute` fail with a version conflict naming the supplied and
the stored version, the state is unchanged, and no store or provenance
write happens — the conflict is detected before any `Save` or provenance
write. -/
theorem route_version_conflict_no_write (env : NPEnv) (st : NPState) (name : String)
    (subtree : Route) (p : Provenance) (version : String) (mr : ManagedRoute)
    (hv : version ≠ "")
    (hlookup : List.lookup (canonicalName name) st.routes = some mr)
    (hne : mr.version ≠ version)
    (hget : env.getConfigErr = none)
    (hvalid : subtree.valid = true) :
    updateManagedRoute env st name subtree p version =
      (.error (.versionConflict version mr.version), st, []) ∧
    deleteManagedRoute env st name p version =
      (.error (.versionConflict version mr.version), st, []) := by
  have hchk : ∀ a, checkOptimisticConcurrency mr p version a =
      some (NPErr.versionConflict version mr.version) := by
    intro a
    unfold checkOptimisticConcurrency
    rw [if_neg hv, if_pos hne]
  constructor
  · unfold updateManagedRoute
    simp only [hvalid, if_true, hget, hlookup, hchk]
  · unfold deleteManagedRoute
    simp only [hget, hlookup, hchk]

theorem route_version_conflict_no_write_witness :
    updateManagedRoute c2Env c2State "team-a" { payload := "new", valid := true }
        Provenance.pnone "v2" =
      (.error (.versionConflict "v2" "v1"), c2State, []) ∧
    deleteManagedRoute c2Env c2State "team-a" Provenance.pnone "v2" =
      (.error (.versionConflict "v2" "v1"), c2State, []) :=
  route_version_conflict_no_write c2Env c2State "team-a"
    { payload := "new", valid := true } Provenance.pnone "v2" c2Route
    (by decide) (by decide) (by decide) rfl rfl

theorem lookup_replaceRoute (fp : Route → String) (routes : List (String × ManagedRoute))
    (name : String) (r : Route) :
    List.lookup name (replaceRoute fp routes name r) =
      (List.lookup name routes).map
        (fun mr => { mr with route := r, version := fp r }) := by
  induction routes with
  | nil => rfl
  | cons q rest ih =>
      obtain ⟨k, mr⟩ := q
      by_cases hk : k = name
      · subst hk
        simp [replaceRoute, List.lookup_cons]
      · have hbeq : (name == k) = false := by
          simp [Ne.symm hk]
        simp only [replaceRoute, List.map_cons, if_neg hk, List.lookup_cons, hbeq]
        exact ih

theorem lookup_removeRoute (routes : List (String × ManagedRoute)) (name : String) :
    List.lookup name (removeRoute routes name) = none := by
  induction routes with
  | nil => rfl
  | cons q rest ih =>
      obtain ⟨k, mr⟩ := q
      by_cases hk : k = name
      · simpa [removeRoute, List.filter_cons, hk] using ih
      · have hbeq : (name == k) = false := by
          simp [Ne.symm hk]
        simpa [removeRoute, List.filter_cons, hk, List.lookup, hbeq] using ih

/-- C7: with healthy collaborators, `DeleteManagedRoute` on the
user-defined (default) tree resets it to the built-in default route, so a
subsequent `GetManagedRoute` still returns a usable route carrying that
default subtree; on any other stored named tree it removes the tree
outright, so a subsequent `GetManagedRoute` returns a not-found error. -/
theorem delete_default_resets_tree (env : NPEnv) (st : NPState) (p : Provenance)
    (defR : Route)
    (hget : env.getConfigErr = none)
    (hprov : env.getProvenanceErr = none)
    (hval : ∀ a b, env.validator a b = none)
    (hparse : env.defaultRouteParse = .ok defR)
    (hmerge : ∀ l, env.mergeOK l = true)
    (hsave : env.saveErr = none)
    (hdel : env.deleteProvenanceErr = none) :
    (∀ mrD, List.lookup UserDefinedRoutingTreeName st.routes = some mrD →
       ∃ st1, deleteManagedRoute env st UserDefinedRoutingTreeName p "" =
           (.ok (), st1, [NPWrite.save, NPWrite.deleteProvenance]) ∧
         ∃ r, getManagedRoute env st1 UserDefinedRoutingTreeName = .ok r ∧
           r.route = defR) ∧
    (∀ n mrN, n ≠ UserDefinedRoutingTreeName → n ≠ "" →
       List.lookup n st.routes = some mrN →
       ∃ st1, deleteManagedRoute env st n p "" =
           (.ok (), st1, [NPWrite.save, NPWrite.deleteProvenance]) ∧
         getManagedRoute env st1 n =
           .error (.routeNotFound ("route " ++ n ++ " not found"))) := by
  constructor
  · intro mrD hlook
    have hcanon : canonicalName UserDefinedRoutingTreeName = UserDefinedRoutingTreeName := by
      unfold canonicalName UserDefinedRoutingTreeName
      decide
    refine ⟨{ routes := replaceRoute env.fingerprint st.routes UserDefinedRoutingTreeName defR,
              provenances := removeProv st.provenances UserDefinedRoutingTreeName }, ?_, ?_⟩
    · unfold deleteManagedRoute
      simp only [hget, hcanon, hlook, checkOptimisticConcurrency, if_pos rfl,
        provRead, hprov, hval, hparse, if_pos (rfl : UserDefinedRoutingTreeName =
          UserDefinedRoutingTreeName), hmerge, hsave, hdel, if_true]
    · refine Exists.intro
        { mrD with
            route := defR
            version := env.fingerprint defR
            provenance := (List.lookup UserDefinedRoutingTreeName
              (removeProv st.provenances UserDefinedRoutingTreeName)).getD
              Provenance.pnone }
        ⟨?_, rfl⟩
      unfold getManagedRoute
      rw [hget]
      simp only [hcanon, lookup_replaceRoute, hlook, provRead, hprov]
      rfl
  · intro n mrN hne hnempty hlook
    have hcanon : canonicalName n = n := by
      unfold canonicalName
      rw [if_neg hnempty]
    refine ⟨{ routes := removeRoute st.routes n,
              provenances := removeProv st.provenances n }, ?_, ?_⟩
    · unfold deleteManagedRoute
      simp only [hget, hcanon, hlook, checkOptimisticConcurrency, if_pos rfl,
        provRead, hprov, hval, if_neg hne, hmerge, hsave, hdel, if_true]
    · unfold getManagedRoute
      simp only [hget, hcanon, lookup_removeRoute]

theorem delete_default_resets_tree_witness :
    (∃ st1, deleteManagedRoute c2Env c7State UserDefinedRoutingTreeName
        Provenance.pnone "" = (.ok (), st1, [NPWrite.save, NPWrite.deleteProvenance]) ∧
      ∃ r, getManagedRoute c2Env st1 UserDefinedRoutingTreeName = .ok r ∧
        r.route = { payload := "default", valid := true }) ∧
    (∃ st1, deleteManagedRoute c2Env c7State "team-b" Provenance.pnone "" =
        (.ok (), st1, [NPWrite.save, NPWrite.deleteProvenance]) ∧
      getManagedRoute c2Env st1 "team-b" =
        .error (.routeNotFound ("route " ++ "team-b" ++ " not found"))) := by
  have h := delete_default_resets_tree c2Env c7State Provenance.pnone
    { payload := "default", valid := true }
    rfl rfl (fun _ _ => rfl) rfl (fun _ => rfl) rfl rfl
  exact ⟨h.1 c7Default (by decide), h.2 "team-b" c7Other (by decide) (by decide) (by decide)⟩

/-- C9 (counter-evidence): when the template-provenance read fails,
`mergeProvenance` — and hence `GetAlertmanagerConfiguration` — returns
success carrying the zero-value configuration instead of propagating the
store error, discarding the loaded configuration entirely; the source's
`return definitions.GettableUserConfig{}, nil` arms contradict the
claimed propagation (and the surrounding error handling), so this is a
defect in the code rather than in the claim. -/
theorem mergeProvenance_template_failure_silent :
    mergeProvenance c9Env c9Config = .ok emptyGettableUserConfig ∧
    c9Config ≠ emptyGettableUserConfig ∧
    (∀ e, mergeProvenance c9Env c9Config ≠ .error e) := by
  refine ⟨by decide, by decide, ?_⟩
  intro e hc
  rw [show mergeProvenance c9Env c9Config = .ok emptyGettableUserConfig from by decide] at hc
  exact Except.noConfusion hc

end Grafana
